import Mathlib

/-!
Verification of the `pending` deferred-task scheduler (package `pending`).

The Go source (Manager, entry, Schedule, Cancel, Shutdown, acquireSlot,
releaseSlot, deleteIfCurrent from the core file, and WithLimit from the
options file) is shallowly embedded as pure functions over an explicit
`Manager` state.  Mutable per-entry state (the timer handle and the
cancellation token) is keyed by an entry identity number that models Go
pointer identity; telemetry callbacks and the observable internal actions
(task-body invocation, slot release, registry deletion, ...) are recorded
in a chronological trace so that ordering claims can be stated.

A separate small-step system (`RaceSys`) models the interleaving of the
timer-fire handler (which holds the read side of `Manager.mu`) with
`Shutdown`'s closing transition (which holds the write side), for the
fire/shutdown race-exclusion property.
-/

namespace Pending

/-- Admission strategies, from the options file: `StrategyBlock` waits for a
slot, `StrategyDrop` rejects when the limit is reached. -/
inductive Strategy
  | block
  | drop
deriving DecidableEq

/-- Telemetry events, one per `TelemetryHandler` method.  `OnFailed` is only
ever called with the distinguished `ErrTaskDropped` error, so it is modelled
as a dedicated constructor. -/
inductive Ev
  | onScheduled (id : String) (d : Int)
  | onRescheduled (id : String)
  | onExecuted (id : String) (elapsed : Int)
  | onCancelled (id : String)
  | onFailedDropped (id : String)
deriving DecidableEq

/-- Observable actions appended to the chronological trace: telemetry events
plus the internal actions of the source whose order the spec talks about. -/
inductive Act
  | ev (e : Ev)
  | timerStop (eid : Nat)
  | tokenCancel (eid : Nat)
  | install (id : String) (eid : Nat)
  | slotAcquired
  | slotReleased
  | entryDeleted (id : String) (eid : Nat)
  | recordStart
  | taskRun (eid : Nat)
  | wgInc
  | wgDec
deriving DecidableEq

/-- Mutable state of one `entry` (the Go struct holds a `*time.Timer` and a
`context.CancelFunc`): whether `timer.Stop` has been called, whether the
cancellation token has been cancelled, and whether the timer has fired. -/
structure EntryState where
  timerStopped : Bool
  tokenCancelled : Bool
  fired : Bool
deriving DecidableEq

/-- Association-list lookup (first binding wins), modelling a Go map read. -/
def alookup {α β : Type} [DecidableEq α] (k : α) : List (α × β) → Option β
  | [] => none
  | (k1, v) :: rest => if k = k1 then some v else alookup k rest

/-- Association-list update, modelling a Go map assignment. -/
def aset {α β : Type} [DecidableEq α] (k : α) (v : β) : List (α × β) → List (α × β)
  | [] => [(k, v)]
  | (k1, v1) :: rest => if k = k1 then (k, v) :: rest else (k1, v1) :: aset k v rest

/-- Association-list removal of every binding of `k`, modelling `delete` on a
Go map (whose keys are unique). -/
def aerase {α β : Type} [DecidableEq α] (k : α) : List (α × β) → List (α × β)
  | [] => []
  | (k1, v1) :: rest => if k = k1 then aerase k rest else (k1, v1) :: aerase k rest

/-- The `Manager` struct.  `pending` maps task IDs to entry identities;
`entries` holds the mutable state of every entry ever created; `nextEid`
supplies fresh identities (modelling pointer freshness); `semCap`/`semUsed`
model the buffered semaphore channel (`none` means no limit configured);
`wg` is the in-flight `WaitGroup` counter; `shutdownStarted` models the
consumed `sync.Once`; `shutdownDone` models the closed `shutdownDone`
channel; `trace` is the chronological action log. -/
structure Manager where
  pending : List (String × Nat)
  entries : List (Nat × EntryState)
  nextEid : Nat
  isClosed : Bool
  semCap : Option Nat
  semUsed : Nat
  strategy : Strategy
  wg : Nat
  shutdownStarted : Bool
  shutdownDone : Bool
  trace : List Act
deriving DecidableEq

/-- Append one action to the trace. -/
def push (m : Manager) (a : Act) : Manager := { m with trace := m.trace ++ [a] }

/-- Update the state of entry `eid` if it exists. -/
def setEntry (m : Manager) (eid : Nat) (f : EntryState → EntryState) : Manager :=
  match alookup eid m.entries with
  | some es => { m with entries := aset eid (f es) m.entries }
  | none => m

/-- `old.timer.Stop()`. -/
def stopTimer (m : Manager) (eid : Nat) : Manager :=
  push (setEntry m eid (fun es => { es with timerStopped := true })) (.timerStop eid)

/-- `cancel()` on an entry's cancellation token. -/
def cancelToken (m : Manager) (eid : Nat) : Manager :=
  push (setEntry m eid (fun es => { es with tokenCancelled := true })) (.tokenCancel eid)

/-- `NewManager` before options are applied. -/
def newManager : Manager :=
  { pending := [], entries := [], nextEid := 0, isClosed := false,
    semCap := none, semUsed := 0, strategy := .block, wg := 0,
    shutdownStarted := false, shutdownDone := false, trace := [] }

/-- `NewManager(opts...)`: apply each option in order to the fresh manager. -/
def NewManager (opts : List (Manager → Manager)) : Manager :=
  opts.foldl (fun m o => o m) newManager

/-- `WithLimit(limit, strategy)`: only a positive limit installs the
semaphore and records the strategy. -/
def WithLimit (limit : Int) (strategy : Strategy) (m : Manager) : Manager :=
  if limit > 0 then { m with semCap := some limit.toNat, strategy := strategy } else m

/-- `Manager.deleteIfCurrent(id, target)`: remove the registry binding for
`id` only if it still points at `target` itself. -/
def deleteIfCurrent (m : Manager) (id : String) (eid : Nat) : Manager :=
  match alookup id m.pending with
  | some cur =>
      if cur = eid then
        push { m with pending := aerase id m.pending } (.entryDeleted id eid)
      else m
  | none => m

/-- `Manager.Schedule(id, d, task)` up to (and including) installing the new
entry; the timer-fire handler is modelled separately (`fireHandler`,
`goBody`) because it runs on its own thread.  A closed manager returns
unchanged. -/
def Schedule (m : Manager) (id : String) (d : Int) : Manager :=
  if m.isClosed then m
  else
    let m1 :=
      match alookup id m.pending with
      | some old => push (cancelToken (stopTimer m old) old) (.ev (.onRescheduled id))
      | none => push m (.ev (.onScheduled id d))
    let e := m1.nextEid
    let m2 := { m1 with entries := aset e ⟨false, false, false⟩ m1.entries, nextEid := e + 1 }
    let m3 := push m2 (.install id e)
    { m3 with pending := aset id e m3.pending }

/-- Whether the delay timer of `eid` may still fire: it must exist, not have
been stopped, and not have fired already (Go timers are one-shot and
`timer.Stop` prevents a not-yet-started callback from running). -/
def canFire (m : Manager) (eid : Nat) : Bool :=
  match alookup eid m.entries with
  | some es => !es.timerStopped && !es.fired
  | none => false

/-- The `time.AfterFunc` callback of `Schedule`, through its read-locked
section: mark the timer fired; if the manager is closed, cancel the own
token and do not launch the body; otherwise register with the `WaitGroup`
(`wg.Go` increments the counter here, under the read lock) and launch.
Returns the new state and whether the body goroutine was launched. -/
def fireHandler (m : Manager) (eid : Nat) : Manager × Bool :=
  let m0 := setEntry m eid (fun es => { es with fired := true })
  if m0.isClosed then (cancelToken m0 eid, false)
  else (push { m0 with wg := m0.wg + 1 } .wgInc, true)

/-- `wg.Done()` when the body goroutine returns. -/
def wgDone (m : Manager) : Manager := push { m with wg := m.wg - 1 } .wgDec

/-- Outcome of `Manager.acquireSlot`. -/
inductive AcqResult
  | acquired
  | droppedNoSlot
  | cancelledWhileWaiting
  | wouldBlock
deriving DecidableEq

/-- `Manager.acquireSlot(ctx, id, e)`.  No semaphore: immediate success.
`StrategyDrop`: non-blocking take; on failure emit `OnFailed(id,
ErrTaskDropped)`, delete-if-current, and report failure.  `StrategyBlock`:
take a slot if one is free; if none is free and the token is already
cancelled, take the `ctx.Done()` branch (delete-if-current, failure);
otherwise the thread parks in the select (`wouldBlock`), to be resumed by
`waiterCancelled` when its token is cancelled first. -/
def acquireSlot (m : Manager) (id : String) (eid : Nat) : Manager × AcqResult :=
  match m.semCap with
  | none => (m, .acquired)
  | some cap =>
    if m.strategy = .drop then
      if m.semUsed < cap then
        (push { m with semUsed := m.semUsed + 1 } .slotAcquired, .acquired)
      else
        (deleteIfCurrent (push m (.ev (.onFailedDropped id))) id eid, .droppedNoSlot)
    else
      if m.semUsed < cap then
        (push { m with semUsed := m.semUsed + 1 } .slotAcquired, .acquired)
      else if ((alookup eid m.entries).map EntryState.tokenCancelled).getD false then
        (deleteIfCurrent m id eid, .cancelledWhileWaiting)
      else (m, .wouldBlock)

/-- `Manager.releaseSlot()`: drain one slot from the semaphore if one is
configured; a no-op otherwise. -/
def releaseSlot (m : Manager) : Manager :=
  match m.semCap with
  | none => m
  | some _ => push { m with semUsed := m.semUsed - 1 } .slotReleased

/-- Start of the admitted body: `start := time.Now()` then `task(ctx)` is
invoked (the opaque body is recorded as a `taskRun` action). -/
def startAdmitted (m : Manager) (eid : Nat) : Manager :=
  push (push m .recordStart) (.taskRun eid)

/-- End of the admitted body: `m.deleteIfCurrent(id, e)`, then
`OnExecuted(id, elapsed)`, then the deferred `releaseSlot`, then the
deferred `cancel()`, then `wg.Done()`. -/
def finishAdmitted (m : Manager) (id : String) (eid : Nat) (elapsed : Int) : Manager :=
  wgDone (cancelToken (releaseSlot
    (push (deleteIfCurrent m id eid) (.ev (.onExecuted id elapsed)))) eid)

/-- The whole `wg.Go` closure run to completion for the non-parking
outcomes: acquire a slot; on success run the body and the exit sequence;
on a non-blocking failure run only the deferred `cancel()` and `wg.Done()`.
A parked `wouldBlock` thread is resumed separately. -/
def goBody (m : Manager) (id : String) (eid : Nat) (elapsed : Int) : Manager :=
  match acquireSlot m id eid with
  | (m1, .acquired) => finishAdmitted (startAdmitted m1 eid) id eid elapsed
  | (m1, .wouldBlock) => m1
  | (m1, _) => wgDone (cancelToken m1 eid)

/-- Resumption of a thread parked in the blocking select after its token was
cancelled: the `ctx.Done()` branch runs `deleteIfCurrent`, the closure
returns, and the deferred `cancel()` and `wg.Done()` run. -/
def waiterCancelled (m : Manager) (id : String) (eid : Nat) : Manager :=
  wgDone (cancelToken (deleteIfCurrent m id eid) eid)

/-- `Manager.Cancel(id)`: if an entry is registered, stop its timer, cancel
its token, delete the binding, and emit `OnCancelled(id)`; otherwise a
silent no-op. -/
def Cancel (m : Manager) (id : String) : Manager :=
  match alookup id m.pending with
  | some e =>
      let m2 := cancelToken (stopTimer m e) e
      push { m2 with pending := aerase id m2.pending } (.ev (.onCancelled id))
  | none => m

/-- The per-entry body of `Shutdown`'s registry sweep: stop the timer,
cancel the token, delete the binding, emit `OnCancelled`. -/
def cancelOne (m : Manager) (p : String × Nat) : Manager :=
  let m2 := cancelToken (stopTimer m p.2) p.2
  push { m2 with pending := aerase p.1 m2.pending } (.ev (.onCancelled p.1))

/-- The `shutdownOnce.Do` body of `Manager.Shutdown`: only the first call
sets `isClosed` and sweeps the registry; later calls leave the state
untouched. -/
def shutdownTransition (m : Manager) : Manager :=
  if m.shutdownStarted then m
  else
    let m1 := { m with shutdownStarted := true, isClosed := true }
    m1.pending.foldl cancelOne m1

/-- The watcher goroutine `wg.Wait(); close(shutdownDone)`: once the
transition has run and the in-flight counter is zero, the done channel
closes. -/
def drainComplete (m : Manager) : Manager :=
  if m.shutdownStarted && m.wg == 0 then { m with shutdownDone := true } else m

/-- The error Shutdown can return (`ctx.Err()` of a deadline context). -/
inductive ShutdownErr
  | deadlineExceeded
deriving DecidableEq

/-- The final select of `Manager.Shutdown`: `deadlineElapsed` says whether
`ctx.Done()` is ready, `m.shutdownDone` whether the done channel is closed;
when both are ready Go picks a case pseudo-randomly, modelled by
`pickDeadline`.  (When neither is ready the select blocks; theorems guard
that case away.) -/
def shutdownResult (m : Manager) (deadlineElapsed : Bool) (pickDeadline : Bool) :
    Option ShutdownErr :=
  if m.shutdownDone && deadlineElapsed then
    if pickDeadline then some .deadlineExceeded else none
  else if m.shutdownDone then none
  else if deadlineElapsed then some .deadlineExceeded
  else none

/-- The telemetry events of a trace, in order. -/
def evs (m : Manager) : List Ev :=
  m.trace.filterMap (fun a => match a with | .ev e => some e | _ => none)

/-- Number of occurrences of an action in a trace. -/
def occs (a : Act) (t : List Act) : Nat := (t.filter (fun x => x = a)).length

/-! ### Projection lemmas for the state-updating helpers -/

@[simp] theorem push_pending (m : Manager) (a : Act) : (push m a).pending = m.pending := rfl

@[simp] theorem push_entries (m : Manager) (a : Act) : (push m a).entries = m.entries := rfl

@[simp] theorem push_isClosed (m : Manager) (a : Act) : (push m a).isClosed = m.isClosed := rfl

@[simp] theorem push_wg (m : Manager) (a : Act) : (push m a).wg = m.wg := rfl

@[simp] theorem push_semCap (m : Manager) (a : Act) : (push m a).semCap = m.semCap := rfl

@[simp] theorem push_semUsed (m : Manager) (a : Act) : (push m a).semUsed = m.semUsed := rfl

@[simp] theorem push_nextEid (m : Manager) (a : Act) : (push m a).nextEid = m.nextEid := rfl

@[simp] theorem push_shutdownStarted (m : Manager) (a : Act) :
    (push m a).shutdownStarted = m.shutdownStarted := rfl

@[simp] theorem push_shutdownDone (m : Manager) (a : Act) :
    (push m a).shutdownDone = m.shutdownDone := rfl

@[simp] theorem push_trace (m : Manager) (a : Act) : (push m a).trace = m.trace ++ [a] := rfl

theorem setEntry_pending (m : Manager) (eid : Nat) (f : EntryState → EntryState) :
    (setEntry m eid f).pending = m.pending := by
  unfold setEntry; cases alookup eid m.entries <;> rfl

theorem setEntry_trace (m : Manager) (eid : Nat) (f : EntryState → EntryState) :
    (setEntry m eid f).trace = m.trace := by
  unfold setEntry; cases alookup eid m.entries <;> rfl

theorem setEntry_isClosed (m : Manager) (eid : Nat) (f : EntryState → EntryState) :
    (setEntry m eid f).isClosed = m.isClosed := by
  unfold setEntry; cases alookup eid m.entries <;> rfl

theorem setEntry_wg (m : Manager) (eid : Nat) (f : EntryState → EntryState) :
    (setEntry m eid f).wg = m.wg := by
  unfold setEntry; cases alookup eid m.entries <;> rfl

theorem setEntry_shutdownStarted (m : Manager) (eid : Nat) (f : EntryState → EntryState) :
    (setEntry m eid f).shutdownStarted = m.shutdownStarted := by
  unfold setEntry; cases alookup eid m.entries <;> rfl

theorem setEntry_shutdownDone (m : Manager) (eid : Nat) (f : EntryState → EntryState) :
    (setEntry m eid f).shutdownDone = m.shutdownDone := by
  unfold setEntry; cases alookup eid m.entries <;> rfl

theorem setEntry_semCap (m : Manager) (eid : Nat) (f : EntryState → EntryState) :
    (setEntry m eid f).semCap = m.semCap := by
  unfold setEntry; cases alookup eid m.entries <;> rfl

theorem setEntry_semUsed (m : Manager) (eid : Nat) (f : EntryState → EntryState) :
    (setEntry m eid f).semUsed = m.semUsed := by
  unfold setEntry; cases alookup eid m.entries <;> rfl

theorem setEntry_nextEid (m : Manager) (eid : Nat) (f : EntryState → EntryState) :
    (setEntry m eid f).nextEid = m.nextEid := by
  unfold setEntry; cases alookup eid m.entries <;> rfl

@[simp] theorem stopTimer_pending (m : Manager) (eid : Nat) :
    (stopTimer m eid).pending = m.pending := by
  unfold stopTimer; rw [push_pending, setEntry_pending]

@[simp] theorem stopTimer_trace (m : Manager) (eid : Nat) :
    (stopTimer m eid).trace = m.trace ++ [.timerStop eid] := by
  unfold stopTimer; rw [push_trace, setEntry_trace]

@[simp] theorem cancelToken_pending (m : Manager) (eid : Nat) :
    (cancelToken m eid).pending = m.pending := by
  unfold cancelToken; rw [push_pending, setEntry_pending]

@[simp] theorem cancelToken_trace (m : Manager) (eid : Nat) :
    (cancelToken m eid).trace = m.trace ++ [.tokenCancel eid] := by
  unfold cancelToken; rw [push_trace, setEntry_trace]

@[simp] theorem stopTimer_isClosed (m : Manager) (eid : Nat) :
    (stopTimer m eid).isClosed = m.isClosed := by
  unfold stopTimer; rw [push_isClosed, setEntry_isClosed]

@[simp] theorem cancelToken_isClosed (m : Manager) (eid : Nat) :
    (cancelToken m eid).isClosed = m.isClosed := by
  unfold cancelToken; rw [push_isClosed, setEntry_isClosed]

@[simp] theorem stopTimer_shutdownStarted (m : Manager) (eid : Nat) :
    (stopTimer m eid).shutdownStarted = m.shutdownStarted := by
  unfold stopTimer; rw [push_shutdownStarted, setEntry_shutdownStarted]

@[simp] theorem cancelToken_shutdownStarted (m : Manager) (eid : Nat) :
    (cancelToken m eid).shutdownStarted = m.shutdownStarted := by
  unfold cancelToken; rw [push_shutdownStarted, setEntry_shutdownStarted]

@[simp] theorem stopTimer_wg (m : Manager) (eid : Nat) :
    (stopTimer m eid).wg = m.wg := by
  unfold stopTimer; rw [push_wg, setEntry_wg]

@[simp] theorem cancelToken_wg (m : Manager) (eid : Nat) :
    (cancelToken m eid).wg = m.wg := by
  unfold cancelToken; rw [push_wg, setEntry_wg]

@[simp] theorem stopTimer_semCap (m : Manager) (eid : Nat) :
    (stopTimer m eid).semCap = m.semCap := by
  unfold stopTimer; rw [push_semCap, setEntry_semCap]

@[simp] theorem cancelToken_semCap (m : Manager) (eid : Nat) :
    (cancelToken m eid).semCap = m.semCap := by
  unfold cancelToken; rw [push_semCap, setEntry_semCap]

@[simp] theorem stopTimer_semUsed (m : Manager) (eid : Nat) :
    (stopTimer m eid).semUsed = m.semUsed := by
  unfold stopTimer; rw [push_semUsed, setEntry_semUsed]

@[simp] theorem cancelToken_semUsed (m : Manager) (eid : Nat) :
    (cancelToken m eid).semUsed = m.semUsed := by
  unfold cancelToken; rw [push_semUsed, setEntry_semUsed]

@[simp] theorem stopTimer_shutdownDone (m : Manager) (eid : Nat) :
    (stopTimer m eid).shutdownDone = m.shutdownDone := by
  unfold stopTimer; rw [push_shutdownDone, setEntry_shutdownDone]

@[simp] theorem cancelToken_shutdownDone (m : Manager) (eid : Nat) :
    (cancelToken m eid).shutdownDone = m.shutdownDone := by
  unfold cancelToken; rw [push_shutdownDone, setEntry_shutdownDone]

/-! ### Association-list lemmas -/

theorem alookup_aset_self {α β : Type} [DecidableEq α] (k : α) (v : β) (l : List (α × β)) :
    alookup k (aset k v l) = some v := by
  induction l with
  | nil => simp [alookup, aset]
  | cons p rest ih =>
      by_cases h : k = p.1
      · simp [alookup, aset, h]
      · simp [alookup, aset, h, ih]

theorem alookup_aset_ne {α β : Type} [DecidableEq α] (k k1 : α) (v : β) (l : List (α × β))
    (h : k1 ≠ k) : alookup k1 (aset k v l) = alookup k1 l := by
  induction l with
  | nil => simp [alookup, aset, h]
  | cons p rest ih =>
      by_cases h2 : k = p.1
      · subst h2; simp [alookup, aset, h]
      · by_cases h3 : k1 = p.1
        · simp [alookup, aset, h2, h3]
        · simp [alookup, aset, h2, h3, ih]

theorem alookup_aerase_self {α β : Type} [DecidableEq α] (k : α) (l : List (α × β)) :
    alookup k (aerase k l) = none := by
  induction l with
  | nil => simp [alookup, aerase]
  | cons p rest ih =>
      by_cases h : k = p.1
      · subst h; simp [aerase, ih]
      · simp [alookup, aerase, h, ih]

theorem alookup_aerase_ne {α β : Type} [DecidableEq α] (k k1 : α) (l : List (α × β))
    (h : k1 ≠ k) : alookup k1 (aerase k l) = alookup k1 l := by
  induction l with
  | nil => simp [aerase]
  | cons p rest ih =>
      by_cases h2 : k = p.1
      · subst h2
        have h3 : k1 ≠ p.1 := h
        simp [aerase, alookup, h3, ih]
      · by_cases h3 : k1 = p.1
        · simp [aerase, alookup, h2, h3]
        · simp [aerase, alookup, h2, h3, ih]

theorem mem_aerase {α β : Type} [DecidableEq α] (k : α) (l : List (α × β)) (q : α × β)
    (h : q ∈ aerase k l) : q ∈ l ∧ q.1 ≠ k := by
  induction l with
  | nil => simp [aerase] at h
  | cons p rest ih =>
      by_cases h2 : k = p.1
      · rw [aerase, if_pos h2] at h
        obtain ⟨h3, h4⟩ := ih h
        exact ⟨List.mem_cons_of_mem p h3, h4⟩
      · rw [aerase, if_neg h2] at h
        rcases List.mem_cons.mp h with h3 | h3
        · subst h3
          exact ⟨List.mem_cons_self p rest, fun h4 => h2 h4.symm⟩
        · obtain ⟨h4, h5⟩ := ih h3
          exact ⟨List.mem_cons_of_mem p h4, h5⟩

/-! ### Concrete scenario states

These follow the testable properties of the spec and the repository's own
tests; entry identities are allocated 0, 1, ... in order of creation. -/

/-- A fresh manager without options. -/
def M0 : Manager := NewManager []

/-- Debounce: first `Schedule("x", 10, f1)` creates entry 0. -/
def Mx1 : Manager := Schedule M0 "x" 10

/-- Debounce: second `Schedule("x", 10, f2)` replaces entry 0 with entry 1. -/
def Mx2 : Manager := Schedule Mx1 "x" 10

/-- Debounce: entry 1's timer fires. -/
def Mx3 : Manager := (fireHandler Mx2 1).1

/-- Debounce: entry 1's body runs to completion. -/
def Mx4 : Manager := goBody Mx3 "x" 1 3

/-- Stale completion: `Schedule("z", 1, f1)` creates entry 0. -/
def Mz1 : Manager := Schedule M0 "z" 1

/-- Stale completion: entry 0's timer fires. -/
def Mz2 : Manager := (fireHandler Mz1 0).1

/-- Stale completion: f1 starts (no limit, so admission succeeded) and then
blocks on an external signal. -/
def Mz3 : Manager := startAdmitted Mz2 0

/-- Stale completion: `Schedule("z", 100, f2)` installs entry 1 while f1 is
still running. -/
def Mz4 : Manager := Schedule Mz3 "z" 100

/-- Stale completion: f1 is released and completes; its cleanup is stale. -/
def Mz5 : Manager := finishAdmitted Mz4 "z" 0 5

/-- Stale completion: `Cancel("z")` removes entry 1. -/
def Mz6 : Manager := Cancel Mz5 "z"

/-- Drop under load: manager with `WithLimit(1, StrategyDrop)`. -/
def Md0 : Manager := NewManager [WithLimit 1 .drop]

/-- Drop: `Schedule("t1", 1, f1)` creates entry 0. -/
def Md1 : Manager := Schedule Md0 "t1" 1

/-- Drop: entry 0 fires. -/
def Md2 : Manager := (fireHandler Md1 0).1

/-- Drop: f1 takes the sole slot and blocks inside its body. -/
def Md3 : Manager := startAdmitted (acquireSlot Md2 "t1" 0).1 0

/-- Drop: `Schedule("t2", 1, f2)` creates entry 1. -/
def Md4 : Manager := Schedule Md3 "t2" 1

/-- Drop: entry 1 fires while the slot is still held. -/
def Md5 : Manager := (fireHandler Md4 1).1

/-- Drop: entry 1's body runs and is rejected by the gate. -/
def Md6 : Manager := goBody Md5 "t2" 1 0

/-- Cancel-while-waiting: manager with `WithLimit(1, StrategyBlock)`. -/
def Mb0 : Manager := NewManager [WithLimit 1 .block]

/-- Cancel-while-waiting: `Schedule("a", 0, f1)` creates entry 0. -/
def Mb1 : Manager := Schedule Mb0 "a" 0

/-- Cancel-while-waiting: entry 0 fires. -/
def Mb2 : Manager := (fireHandler Mb1 0).1

/-- Cancel-while-waiting: f1 takes the sole slot and blocks in its body. -/
def Mb3 : Manager := startAdmitted (acquireSlot Mb2 "a" 0).1 0

/-- Cancel-while-waiting: `Schedule("b", 0, f2)` creates entry 1. -/
def Mb4 : Manager := Schedule Mb3 "b" 0

/-- Cancel-while-waiting: entry 1 fires; its acquire attempt parks
(`acquireSlot Mb5 "b" 1` yields `wouldBlock`). -/
def Mb5 : Manager := (fireHandler Mb4 1).1

/-- Cancel-while-waiting: `Cancel("b")` cancels the parked entry's token. -/
def Mb6 : Manager := Cancel Mb5 "b"

/-- Cancel-while-waiting: the parked thread resumes on the done branch. -/
def Mb7 : Manager := waiterCancelled Mb6 "b" 1

/-- Cancel-while-waiting: f1 is released and completes. -/
def Mb8 : Manager := finishAdmitted Mb7 "a" 0 9

/-- Execution order: entry 0's body on the limit-1 manager runs to
completion with a free slot. -/
def Mo3 : Manager := goBody Mb2 "a" 0 7

/-- A closed manager (after the first `Shutdown` call's transition). -/
def Mc : Manager := shutdownTransition M0

/-- A drained manager: transition done and the in-flight counter at zero. -/
def Msd : Manager := drainComplete Mc

/-- A second drained manager, reached with one entry in the registry. -/
def Msd2 : Manager := drainComplete (shutdownTransition (Schedule M0 "a" 5))

/-- The spec's stated post-admission order, to be compared with the source:
scan a trace and report whether a slot release appears strictly before the
registry removal of the given entry.  The spec asserts this holds of the
admitted path; the source is checked against it. -/
def releasedBeforeDeleted (id : String) (eid : Nat) : List Act → Bool
  | [] => false
  | a :: rest =>
    if a = .slotReleased then true
    else if a = .entryDeleted id eid then false
    else releasedBeforeDeleted id eid rest

/-! ### Fire/shutdown race model

A two-thread small-step system for the interleaving of one timer-fire
handler with one `Shutdown` call, with the read/write lock `Manager.mu`
encoded in the step guards.  The fire handler (source: the `time.AfterFunc`
closure) takes `mu.RLock`, reads `isClosed`, and either cancels its own
token (excluded) or increments the in-flight counter via `wg.Go` — all
before `mu.RUnlock`.  Shutdown takes `mu.Lock`, sets `isClosed`, releases,
and then waits for the counter to reach zero. -/

/-- Program counter of the fire-handler thread. -/
inductive FPc
  | f0      -- before `mu.RLock`
  | fR      -- holding the read lock, before reading `isClosed`
  | fRead   -- holding the read lock, `isClosed` read into `obs`
  | fCounted -- holding the read lock, counted by `wg.Go`
  | fEx     -- holding the read lock, excluded (own token cancelled)
  | fRun    -- read lock released, body running
  | fDoneEx -- excluded and finished
  | fDone   -- body finished, counter decremented
deriving DecidableEq

/-- Program counter of the shutdown thread. -/
inductive SPc
  | s0      -- before `mu.Lock`
  | sW      -- holding the write lock, before setting `isClosed`
  | sClosed -- holding the write lock, `isClosed` set (registry swept)
  | s3      -- write lock released, waiting on the counter
  | sDone   -- drain observed complete
deriving DecidableEq

/-- Joint state of the two threads: the fire handler's saved read of
`isClosed`, the flag itself, and the in-flight counter. -/
structure RaceSys where
  fpc : FPc
  spc : SPc
  obs : Bool
  closed : Bool
  wg : Nat
deriving DecidableEq

/-- Whether the fire thread holds the read lock at a program counter. -/
def fHoldsR : FPc → Bool
  | .fR | .fRead | .fCounted | .fEx => true
  | _ => false

/-- Whether the shutdown thread holds the write lock at a program counter. -/
def sHoldsW : SPc → Bool
  | .sW | .sClosed => true
  | _ => false

/-- Interleaving steps; lock guards encode `sync.RWMutex` exclusion. -/
inductive RStep : RaceSys → RaceSys → Prop
  | fAcqR (s : RaceSys) (h1 : s.fpc = .f0) (h2 : sHoldsW s.spc = false) :
      RStep s { s with fpc := .fR }
  | fReadClosed (s : RaceSys) (h1 : s.fpc = .fR) :
      RStep s { s with fpc := .fRead, obs := s.closed }
  | fExcl (s : RaceSys) (h1 : s.fpc = .fRead) (h2 : s.obs = true) :
      RStep s { s with fpc := .fEx }
  | fCount (s : RaceSys) (h1 : s.fpc = .fRead) (h2 : s.obs = false) :
      RStep s { s with fpc := .fCounted, wg := s.wg + 1 }
  | fRelCounted (s : RaceSys) (h1 : s.fpc = .fCounted) :
      RStep s { s with fpc := .fRun }
  | fRelExcl (s : RaceSys) (h1 : s.fpc = .fEx) :
      RStep s { s with fpc := .fDoneEx }
  | fFinish (s : RaceSys) (h1 : s.fpc = .fRun) :
      RStep s { s with fpc := .fDone, wg := s.wg - 1 }
  | sAcqW (s : RaceSys) (h1 : s.spc = .s0) (h2 : fHoldsR s.fpc = false) :
      RStep s { s with spc := .sW }
  | sClose (s : RaceSys) (h1 : s.spc = .sW) :
      RStep s { s with spc := .sClosed, closed := true }
  | sRelW (s : RaceSys) (h1 : s.spc = .sClosed) :
      RStep s { s with spc := .s3 }
  | sWaitDone (s : RaceSys) (h1 : s.spc = .s3) (h2 : s.wg = 0) :
      RStep s { s with spc := .sDone }

/-- Initial joint state: both threads at their start, manager open. -/
def rinit : RaceSys := ⟨.f0, .s0, false, false, 0⟩

/-- Reachability from the initial state. -/
def RReach (s : RaceSys) : Prop := Relation.ReflTransGen RStep rinit s

/-- Counter contribution of the fire thread at each program counter. -/
def wgOf : FPc → Nat
  | .fCounted | .fRun => 1
  | _ => 0

/-- The closed flag as a function of the shutdown thread's progress. -/
def closedOf : SPc → Bool
  | .sClosed | .s3 | .sDone => true
  | _ => false

/-- Inductive invariant of the race system. -/
def rinv (s : RaceSys) : Prop :=
  s.wg = wgOf s.fpc ∧
  s.closed = closedOf s.spc ∧
  (fHoldsR s.fpc = true → sHoldsW s.spc = false) ∧
  (s.fpc = .fRead → s.obs = s.closed) ∧
  (s.fpc = .fCounted → s.closed = false) ∧
  (s.spc = .sDone → s.fpc ≠ .fCounted ∧ s.fpc ≠ .fRun)

theorem rinv_init : rinv rinit := by
  unfold rinv; decide

theorem rinv_step (s s1 : RaceSys) (h : rinv s) (st : RStep s s1) : rinv s1 := by
  obtain ⟨h1, h2, h3, h4, h5, h6⟩ := h
  cases st with
  | fAcqR g1 g2 =>
      refine ⟨?_, ?_, ?_, ?_, ?_, ?_⟩ <;> simp_all [rinv, wgOf, closedOf, fHoldsR, sHoldsW]
  | fReadClosed g1 =>
      refine ⟨?_, ?_, ?_, ?_, ?_, ?_⟩ <;> simp_all [rinv, wgOf, closedOf, fHoldsR, sHoldsW]
  | fExcl g1 g2 =>
      refine ⟨?_, ?_, ?_, ?_, ?_, ?_⟩ <;> simp_all [rinv, wgOf, closedOf, fHoldsR, sHoldsW]
  | fCount g1 g2 =>
      have hc : s.closed = false := by rw [← h4 g1, g2]
      have hs : s.spc ≠ .sDone := by
        intro hd; rw [hd] at h2; rw [hc] at h2; simp [closedOf] at h2
      refine ⟨?_, ?_, ?_, ?_, ?_, ?_⟩ <;> simp_all [rinv, wgOf, closedOf, fHoldsR, sHoldsW]
  | fRelCounted g1 =>
      have hs : s.spc ≠ .sDone := by
        intro hd; exact (h6 hd).1 g1
      refine ⟨?_, ?_, ?_, ?_, ?_, ?_⟩ <;> simp_all [rinv, wgOf, closedOf, fHoldsR, sHoldsW]
  | fRelExcl g1 =>
      refine ⟨?_, ?_, ?_, ?_, ?_, ?_⟩ <;> simp_all [rinv, wgOf, closedOf, fHoldsR, sHoldsW]
  | fFinish g1 =>
      refine ⟨?_, ?_, ?_, ?_, ?_, ?_⟩ <;> simp_all [rinv, wgOf, closedOf, fHoldsR, sHoldsW]
  | sAcqW g1 g2 =>
      refine ⟨?_, ?_, ?_, ?_, ?_, ?_⟩ <;> simp_all [rinv, wgOf, closedOf, fHoldsR, sHoldsW]
  | sClose g1 =>
      have hf1 : fHoldsR s.fpc = false := by
        cases hr : fHoldsR s.fpc
        · rfl
        · have h9 := h3 hr; rw [g1] at h9; simp [sHoldsW] at h9
      refine ⟨?_, ?_, ?_, ?_, ?_, ?_⟩ <;>
        cases hfp : s.fpc <;> simp_all [rinv, wgOf, closedOf, fHoldsR, sHoldsW]
  | sRelW g1 =>
      refine ⟨?_, ?_, ?_, ?_, ?_, ?_⟩ <;> simp_all [rinv, wgOf, closedOf, fHoldsR, sHoldsW]
  | sWaitDone g1 g2 =>
      have hf : s.fpc ≠ .fCounted ∧ s.fpc ≠ .fRun := by
        constructor <;> intro hd <;> rw [hd] at h1 <;> rw [g2] at h1 <;> simp [wgOf] at h1
      refine ⟨?_, ?_, ?_, ?_, ?_, ?_⟩ <;> simp_all [rinv, wgOf, closedOf, fHoldsR, sHoldsW]

theorem rinv_reach (s : RaceSys) (h : RReach s) : rinv s := by
  induction h with
  | refl => exact rinv_init
  | tail _ h2 ih => exact rinv_step _ _ ih h2

/-! ### Fold lemmas for Shutdown's registry sweep -/

theorem cancelOne_pending (a : Manager) (p : String × Nat) :
    (cancelOne a p).pending = aerase p.1 a.pending := by
  unfold cancelOne; simp

theorem cancelOne_trace (a : Manager) (p : String × Nat) :
    (cancelOne a p).trace =
      a.trace ++ [.timerStop p.2, .tokenCancel p.2, .ev (.onCancelled p.1)] := by
  unfold cancelOne; simp

theorem cancelOne_isClosed (a : Manager) (p : String × Nat) :
    (cancelOne a p).isClosed = a.isClosed := by
  unfold cancelOne; simp

theorem cancelOne_shutdownStarted (a : Manager) (p : String × Nat) :
    (cancelOne a p).shutdownStarted = a.shutdownStarted := by
  unfold cancelOne; simp

theorem foldl_cancelOne_pending (l : List (String × Nat)) (a : Manager) :
    (l.foldl cancelOne a).pending = l.foldl (fun acc p => aerase p.1 acc) a.pending := by
  induction l generalizing a with
  | nil => rfl
  | cons p rest ih => rw [List.foldl_cons, List.foldl_cons, ih, cancelOne_pending]

theorem foldl_aerase_nil (l : List (String × Nat)) (acc : List (String × Nat))
    (h : ∀ q ∈ acc, q.1 ∈ l.map Prod.fst) :
    l.foldl (fun acc p => aerase p.1 acc) acc = [] := by
  induction l generalizing acc with
  | nil =>
      cases acc with
      | nil => rfl
      | cons q rest => exact absurd (h q (List.mem_cons_self q rest)) (by simp)
  | cons p rest ih =>
      rw [List.foldl_cons]
      apply ih
      intro q hq
      obtain ⟨hq1, hq2⟩ := mem_aerase p.1 acc q hq
      have h3 := h q hq1
      simp only [List.map_cons, List.mem_cons] at h3
      rcases h3 with h3 | h3
      · exact absurd h3 hq2
      · exact h3

/-- The entry state of `e` records both a stopped timer and a cancelled
token. -/
def flagged (m : Manager) (e : Nat) : Prop :=
  ∃ es, alookup e m.entries = some es ∧ es.timerStopped = true ∧ es.tokenCancelled = true

/-- Entry `e` exists in the entries table. -/
def present (m : Manager) (e : Nat) : Prop := (alookup e m.entries).isSome

theorem alookup_setEntry_self (m : Manager) (e : Nat) (f : EntryState → EntryState) :
    alookup e (setEntry m e f).entries = (alookup e m.entries).map f := by
  unfold setEntry
  cases h : alookup e m.entries with
  | none => simp [h]
  | some es => simp [alookup_aset_self]

theorem alookup_setEntry_ne (m : Manager) (e e1 : Nat) (f : EntryState → EntryState)
    (h : e1 ≠ e) : alookup e1 (setEntry m e f).entries = alookup e1 m.entries := by
  unfold setEntry
  cases h2 : alookup e m.entries with
  | none => rfl
  | some es => simp [alookup_aset_ne _ _ _ _ h]

theorem cancelOne_entries (a : Manager) (p : String × Nat) :
    (cancelOne a p).entries = (cancelToken (stopTimer a p.2) p.2).entries := by
  unfold cancelOne; rfl

theorem present_cancelOne (a : Manager) (p : String × Nat) (e : Nat)
    (h : present a e) : present (cancelOne a p) e := by
  unfold present at h ⊢
  rw [cancelOne_entries]
  unfold cancelToken stopTimer
  by_cases h2 : e = p.2
  · subst h2
    simp only [push_entries, alookup_setEntry_self]
    cases h3 : alookup p.2 a.entries with
    | none => rw [h3] at h; simp at h
    | some es => simp [h3]
  · simp only [push_entries, alookup_setEntry_ne _ _ _ _ h2]
    exact h

theorem flagged_cancelOne (a : Manager) (p : String × Nat) (e : Nat)
    (h : flagged a e) : flagged (cancelOne a p) e := by
  obtain ⟨es, h1, h2, h3⟩ := h
  rw [flagged, cancelOne_entries]
  unfold cancelToken stopTimer
  by_cases h4 : e = p.2
  · subst h4
    simp only [push_entries, alookup_setEntry_self, h1, Option.map_some]
    exact ⟨_, rfl, rfl, rfl⟩
  · simp only [push_entries, alookup_setEntry_ne _ _ _ _ h4, h1]
    exact ⟨es, rfl, h2, h3⟩

theorem flagged_cancelOne_self (a : Manager) (p : String × Nat)
    (h : present a p.2) : flagged (cancelOne a p) p.2 := by
  unfold present at h
  rw [flagged, cancelOne_entries]
  unfold cancelToken stopTimer
  simp only [push_entries, alookup_setEntry_self]
  cases h3 : alookup p.2 a.entries with
  | none => rw [h3] at h; simp at h
  | some es => simp [h3]

theorem present_foldl_cancelOne (l : List (String × Nat)) (a : Manager) (e : Nat)
    (h : present a e) : present (l.foldl cancelOne a) e := by
  induction l generalizing a with
  | nil => exact h
  | cons p rest ih => rw [List.foldl_cons]; exact ih _ (present_cancelOne a p e h)

theorem flagged_foldl_cancelOne (l : List (String × Nat)) (a : Manager) (e : Nat)
    (h : flagged a e) : flagged (l.foldl cancelOne a) e := by
  induction l generalizing a with
  | nil => exact h
  | cons p rest ih => rw [List.foldl_cons]; exact ih _ (flagged_cancelOne a p e h)

theorem flagged_foldl_of_mem (l : List (String × Nat)) (a : Manager) (p : String × Nat)
    (hp : p ∈ l) (hpres : present a p.2) : flagged (l.foldl cancelOne a) p.2 := by
  induction l generalizing a with
  | nil => simp at hp
  | cons q rest ih =>
      rw [List.foldl_cons]
      rcases List.mem_cons.mp hp with h2 | h2
      · subst h2
        exact flagged_foldl_cancelOne rest _ _ (flagged_cancelOne_self a p hpres)
      · exact ih (cancelOne a q) h2 (present_cancelOne a q p.2 hpres)

theorem trace_foldl_cancelOne_extends (l : List (String × Nat)) (a : Manager) :
    ∃ t, (l.foldl cancelOne a).trace = a.trace ++ t := by
  induction l generalizing a with
  | nil => exact ⟨[], by simp⟩
  | cons p rest ih =>
      rw [List.foldl_cons]
      obtain ⟨t, ht⟩ := ih (cancelOne a p)
      refine ⟨[.timerStop p.2, .tokenCancel p.2, .ev (.onCancelled p.1)] ++ t, ?_⟩
      rw [ht, cancelOne_trace]
      simp

theorem cancelled_event_foldl_of_mem (l : List (String × Nat)) (a : Manager)
    (p : String × Nat) (hp : p ∈ l) :
    Act.ev (.onCancelled p.1) ∈ (l.foldl cancelOne a).trace := by
  induction l generalizing a with
  | nil => simp at hp
  | cons q rest ih =>
      rw [List.foldl_cons]
      rcases List.mem_cons.mp hp with h2 | h2
      · subst h2
        obtain ⟨t, ht⟩ := trace_foldl_cancelOne_extends rest (cancelOne a p)
        rw [ht, cancelOne_trace]
        simp
      · exact ih (cancelOne a q) h2

theorem isClosed_foldl_cancelOne (l : List (String × Nat)) (a : Manager) :
    (l.foldl cancelOne a).isClosed = a.isClosed := by
  induction l generalizing a with
  | nil => rfl
  | cons p rest ih => rw [List.foldl_cons, ih, cancelOne_isClosed]

theorem shutdownStarted_foldl_cancelOne (l : List (String × Nat)) (a : Manager) :
    (l.foldl cancelOne a).shutdownStarted = a.shutdownStarted := by
  induction l generalizing a with
  | nil => rfl
  | cons p rest ih => rw [List.foldl_cons, ih, cancelOne_shutdownStarted]

theorem cancelOne_shutdownDone (a : Manager) (p : String × Nat) :
    (cancelOne a p).shutdownDone = a.shutdownDone := by
  unfold cancelOne; simp

theorem shutdownDone_foldl_cancelOne (l : List (String × Nat)) (a : Manager) :
    (l.foldl cancelOne a).shutdownDone = a.shutdownDone := by
  induction l generalizing a with
  | nil => rfl
  | cons p rest ih => rw [List.foldl_cons, ih, cancelOne_shutdownDone]

/-! ### Further helper lemmas about the operations -/

@[simp] theorem stopTimer_nextEid (m : Manager) (eid : Nat) :
    (stopTimer m eid).nextEid = m.nextEid := by
  unfold stopTimer; rw [push_nextEid, setEntry_nextEid]

@[simp] theorem cancelToken_nextEid (m : Manager) (eid : Nat) :
    (cancelToken m eid).nextEid = m.nextEid := by
  unfold cancelToken; rw [push_nextEid, setEntry_nextEid]

theorem occs_append (a : Act) (t1 t2 : List Act) :
    occs a (t1 ++ t2) = occs a t1 + occs a t2 := by
  unfold occs; rw [List.filter_append, List.length_append]

theorem occs_nil (a : Act) : occs a [] = 0 := rfl

theorem occs_single_ne (a b : Act) (h : b ≠ a) : occs a [b] = 0 := by
  unfold occs
  rw [List.filter_cons]
  simp [h]

/-- The trace of `deleteIfCurrent`: either unchanged or extended by exactly
the deletion marker. -/
theorem deleteIfCurrent_trace_cases (m : Manager) (id : String) (e : Nat) :
    (deleteIfCurrent m id e).trace = m.trace ∨
    (deleteIfCurrent m id e).trace = m.trace ++ [.entryDeleted id e] := by
  unfold deleteIfCurrent
  cases alookup id m.pending with
  | none => exact Or.inl rfl
  | some cur =>
      by_cases h : cur = e
      · right; simp [h]
      · left; simp [h]

theorem occs_deleteIfCurrent_of_ne (a : Act) (m : Manager) (id : String) (e : Nat)
    (h : ∀ id2 e2, a ≠ .entryDeleted id2 e2) :
    occs a (deleteIfCurrent m id e).trace = occs a m.trace := by
  rcases deleteIfCurrent_trace_cases m id e with h2 | h2
  · rw [h2]
  · rw [h2, occs_append, occs_single_ne _ _ (fun h3 => h id e h3.symm)]
    omega

theorem deleteIfCurrent_semCap (m : Manager) (id : String) (e : Nat) :
    (deleteIfCurrent m id e).semCap = m.semCap := by
  unfold deleteIfCurrent
  cases alookup id m.pending with
  | none => rfl
  | some cur => by_cases h : cur = e <;> simp [h]

theorem deleteIfCurrent_semUsed (m : Manager) (id : String) (e : Nat) :
    (deleteIfCurrent m id e).semUsed = m.semUsed := by
  unfold deleteIfCurrent
  cases alookup id m.pending with
  | none => rfl
  | some cur => by_cases h : cur = e <;> simp [h]

theorem evs_push_nonev (m : Manager) (a : Act) (h : ∀ e, a ≠ .ev e) :
    evs (push m a) = evs m := by
  unfold evs
  rw [push_trace, List.filterMap_append]
  cases a with
  | ev e => exact absurd rfl (h e)
  | _ => simp

theorem deleteIfCurrent_stale (m : Manager) (id : String) (e e2 : Nat)
    (h1 : alookup id m.pending = some e2) (h2 : e2 ≠ e) : deleteIfCurrent m id e = m := by
  unfold deleteIfCurrent
  rw [h1]
  simp [h2]

theorem deleteIfCurrent_absent (m : Manager) (id : String) (e : Nat)
    (h1 : alookup id m.pending = none) : deleteIfCurrent m id e = m := by
  unfold deleteIfCurrent
  rw [h1]

theorem deleteIfCurrent_current (m : Manager) (id : String) (e : Nat)
    (h1 : alookup id m.pending = some e) :
    alookup id (deleteIfCurrent m id e).pending = none := by
  unfold deleteIfCurrent
  rw [h1]
  simp [alookup_aerase_self]

/-- The trace appended by `Schedule`: nothing when closed; the replace
sequence when an entry exists; the fresh-schedule sequence otherwise. -/
theorem Schedule_trace_cases (m : Manager) (id : String) (d : Int) :
    (Schedule m id d).trace = m.trace ∨
    (∃ old, (Schedule m id d).trace =
        m.trace ++ [.timerStop old, .tokenCancel old, .ev (.onRescheduled id),
                    .install id m.nextEid]) ∨
    (Schedule m id d).trace =
        m.trace ++ [.ev (.onScheduled id d), .install id m.nextEid] := by
  unfold Schedule
  by_cases h : m.isClosed
  · rw [if_pos h]; exact Or.inl rfl
  · rw [if_neg h]
    cases h2 : alookup id m.pending with
    | some old => exact Or.inr (Or.inl ⟨old, by simp⟩)
    | none => exact Or.inr (Or.inr (by simp))

theorem wgDone_trace (m : Manager) : (wgDone m).trace = m.trace ++ [.wgDec] := rfl

theorem wgDone_pending (m : Manager) : (wgDone m).pending = m.pending := rfl

theorem waiterCancelled_trace (m : Manager) (id : String) (eid : Nat) :
    (waiterCancelled m id eid).trace =
      (deleteIfCurrent m id eid).trace ++ [.tokenCancel eid, .wgDec] := by
  unfold waiterCancelled
  rw [wgDone_trace, cancelToken_trace]
  simp

theorem waiterCancelled_pending (m : Manager) (id : String) (eid : Nat) :
    (waiterCancelled m id eid).pending = (deleteIfCurrent m id eid).pending := by
  unfold waiterCancelled
  rw [wgDone_pending, cancelToken_pending]

theorem evs_waiterCancelled (m : Manager) (id : String) (eid : Nat) :
    evs (waiterCancelled m id eid) = evs m := by
  unfold evs
  rw [waiterCancelled_trace, List.filterMap_append]
  rcases deleteIfCurrent_trace_cases m id eid with h | h <;> rw [h] <;> simp

/-! ### Claim theorems -/

/-- C2.  Stale-completion guard (Invariant I2): `deleteIfCurrent` removes
the registry mapping only when it still points at the given entry itself
(identity comparison): a mismatching current entry, and an absent key, leave
the state untouched, while a matching entry is removed.  In the spec's
stale-completion scenario, f1's completion (`Mz5`) does not delete the
newer entry 1 registered under "z" and performs no deletion at all;
`Cancel("z")` then removes entry 1, whose task never runs and whose timer
can no longer fire. -/
theorem C2_stale_completion_guard :
    (∀ (m : Manager) (id : String) (e e2 : Nat),
        alookup id m.pending = some e2 → e2 ≠ e → deleteIfCurrent m id e = m) ∧
    (∀ (m : Manager) (id : String) (e : Nat),
        alookup id m.pending = some e →
        alookup id (deleteIfCurrent m id e).pending = none) ∧
    (∀ (m : Manager) (id : String) (e : Nat),
        alookup id m.pending = none → deleteIfCurrent m id e = m) ∧
    (alookup "z" Mz5.pending = some 1 ∧
     occs (.entryDeleted "z" 0) Mz5.trace = 0 ∧
     alookup "z" Mz6.pending = none ∧
     canFire Mz6 1 = false ∧
     occs (.taskRun 1) Mz6.trace = 0) := by
  exact ⟨fun m id e e2 h1 h2 => deleteIfCurrent_stale m id e e2 h1 h2,
         fun m id e h1 => deleteIfCurrent_current m id e h1,
         fun m id e h1 => deleteIfCurrent_absent m id e h1,
         by decide⟩

/-- C2 witness: in the stale-completion scenario state `Mz4` (entry 1
current under "z"), the stale cleanup of entry 0 is a no-op, and deleting
the current entry 1 removes the mapping. -/
theorem C2_stale_completion_guard_witness :
    deleteIfCurrent Mz4 "z" 0 = Mz4 ∧
    alookup "z" (deleteIfCurrent Mz4 "z" 1).pending = none := by
  refine ⟨?_, ?_⟩
  · exact C2_stale_completion_guard.1 Mz4 "z" 0 1 (by decide) (by decide)
  · exact C2_stale_completion_guard.2.1 Mz4 "z" 1 (by decide)

/-- C3.  Post-close no-op: `Schedule` on a closed manager returns the state
unchanged (no entry, no telemetry, no task); a timer that fires on a closed
manager only cancels its own token, never launches the body, and never
invokes the task; the first `Shutdown` transition sets the closed flag, and
no other operation ever clears it, so after a shutdown no entry is ever
installed. -/
theorem C3_post_close_noop :
    (∀ (m : Manager) (id : String) (d : Int), m.isClosed = true → Schedule m id d = m) ∧
    (∀ (m : Manager) (eid : Nat), m.isClosed = true →
        (fireHandler m eid).2 = false ∧
        (fireHandler m eid).1.trace = m.trace ++ [.tokenCancel eid] ∧
        occs (.taskRun eid) (fireHandler m eid).1.trace = occs (.taskRun eid) m.trace) ∧
    (∀ m : Manager, m.shutdownStarted = false → (shutdownTransition m).isClosed = true) ∧
    (∀ (m : Manager) (id : String) (d : Int), (Schedule m id d).isClosed = m.isClosed) ∧
    (∀ (m : Manager) (id : String), (Cancel m id).isClosed = m.isClosed) := by
  refine ⟨?_, ?_, ?_, ?_, ?_⟩
  · intro m id d h
    unfold Schedule
    rw [h]
    rfl
  · intro m eid h
    have h0 : (setEntry m eid (fun es => { es with fired := true })).isClosed = true := by
      rw [setEntry_isClosed]; exact h
    have htr : (fireHandler m eid).1.trace = m.trace ++ [.tokenCancel eid] := by
      simp [fireHandler, h0, setEntry_trace]
    refine ⟨?_, htr, ?_⟩
    · simp [fireHandler, h0]
    · rw [htr, occs_append, occs_single_ne _ _ (by simp)]
      omega
  · intro m h
    unfold shutdownTransition
    rw [h]
    simp only [Bool.false_eq_true, if_false]
    rw [isClosed_foldl_cancelOne]
  · intro m id d
    unfold Schedule
    by_cases h : m.isClosed
    · rw [if_pos h]
    · rw [if_neg h]
      cases alookup id m.pending <;> simp
  · intro m id
    unfold Cancel
    cases alookup id m.pending <;> simp

/-- C3 witness: on the closed manager `Mc`, a `Schedule` call is the
identity and a firing timer does not launch its body. -/
theorem C3_post_close_noop_witness :
    Schedule Mc "late" 0 = Mc ∧ (fireHandler Mc 0).2 = false := by
  refine ⟨?_, ?_⟩
  · exact C3_post_close_noop.1 Mc "late" 0 (by decide)
  · exact ((C3_post_close_noop.2.1) Mc 0 (by decide)).1

/-- C10.  Non-positive limit means unlimited: `WithLimit` with `limit ≤ 0`
leaves the manager untouched (no semaphore installed, no strategy
recorded), so construction with such an option equals construction without
it; and with no semaphore every acquisition succeeds immediately with no
state change while release is a no-op — no drop and no blocking can
occur. -/
theorem C10_nonpositive_limit_unlimited :
    (∀ (m : Manager) (l : Int) (s : Strategy), l ≤ 0 → WithLimit l s m = m) ∧
    (∀ (l : Int) (s : Strategy), l ≤ 0 → NewManager [WithLimit l s] = NewManager []) ∧
    (∀ (m : Manager) (id : String) (eid : Nat), m.semCap = none →
        acquireSlot m id eid = (m, .acquired) ∧ releaseSlot m = m) := by
  refine ⟨?_, ?_, ?_⟩
  · intro m l s h
    unfold WithLimit
    rw [if_neg (by omega)]
  · intro l s h
    show WithLimit l s newManager = newManager
    unfold WithLimit
    rw [if_neg (by omega)]
  · intro m id eid h
    constructor
    · unfold acquireSlot
      rw [h]
    · unfold releaseSlot
      rw [h]

/-- C10 witness: `WithLimit 0` and `WithLimit (-3)` are the identity on a
fresh manager, and on the optionless manager `M0` acquisition succeeds
immediately and release is a no-op. -/
theorem C10_nonpositive_limit_unlimited_witness :
    WithLimit 0 .drop newManager = newManager ∧
    NewManager [WithLimit (-3) .block] = NewManager [] ∧
    acquireSlot M0 "t" 0 = (M0, .acquired) ∧ releaseSlot M0 = M0 := by
  refine ⟨?_, ?_, ?_, ?_⟩
  · exact C10_nonpositive_limit_unlimited.1 newManager 0 .drop (by decide)
  · exact C10_nonpositive_limit_unlimited.2.1 (-3) .block (by decide)
  · exact (C10_nonpositive_limit_unlimited.2.2 M0 "t" 0 (by decide)).1
  · exact (C10_nonpositive_limit_unlimited.2.2 M0 "t" 0 (by decide)).2

/-- C5.  Drop admission rejection: with a configured limit, the Drop
strategy, and no free slot, `acquireSlot` emits `OnFailed(id,
ErrTaskDropped)`, removes the entry if still current, and reports failure;
the fired body then never invokes the task.  `Schedule` itself never
appends a failed event (the rejection is reported only via telemetry, on
the asynchronous path).  In the drop scenario the second task's rejection
emits exactly one dropped event, runs no task, and removes its entry. -/
theorem C5_drop_admission_rejection :
    (∀ (m : Manager) (id : String) (eid : Nat) (cap : Nat),
        m.semCap = some cap → m.strategy = .drop → ¬ m.semUsed < cap →
        acquireSlot m id eid =
          (deleteIfCurrent (push m (.ev (.onFailedDropped id))) id eid, .droppedNoSlot) ∧
        occs (.taskRun eid) (goBody m id eid 0).trace = occs (.taskRun eid) m.trace) ∧
    (∀ (m : Manager) (id : String) (d : Int) (id2 : String),
        occs (.ev (.onFailedDropped id2)) (Schedule m id d).trace =
          occs (.ev (.onFailedDropped id2)) m.trace) ∧
    (occs (.ev (.onFailedDropped "t2")) Md6.trace = 1 ∧
     occs (.taskRun 1) Md6.trace = 0 ∧
     alookup "t2" Md6.pending = none) := by
  refine ⟨?_, ?_, by decide⟩
  · intro m id eid cap h1 h2 h3
    have hacq : acquireSlot m id eid =
        (deleteIfCurrent (push m (.ev (.onFailedDropped id))) id eid, .droppedNoSlot) := by
      unfold acquireSlot
      rw [h1]
      simp [h2, h3]
    refine ⟨hacq, ?_⟩
    have hb : goBody m id eid 0 =
        wgDone (cancelToken
          (deleteIfCurrent (push m (.ev (.onFailedDropped id))) id eid) eid) := by
      unfold goBody
      rw [hacq]
    rw [hb, wgDone_trace, cancelToken_trace, occs_append, occs_append,
        occs_single_ne _ _ (by simp), occs_single_ne _ _ (by simp),
        occs_deleteIfCurrent_of_ne _ _ _ _ (by intro id2 e2; simp), push_trace,
        occs_append, occs_single_ne _ _ (by simp)]
    omega
  · intro m id d id2
    rcases Schedule_trace_cases m id d with h | ⟨old, h⟩ | h <;> rw [h]
    · rw [occs_append]
      have h4 : occs (Act.ev (.onFailedDropped id2))
          [Act.timerStop old, Act.tokenCancel old, Act.ev (.onRescheduled id),
           Act.install id m.nextEid] = 0 := by
        simp [occs, List.filter]
      omega
    · rw [occs_append]
      have h4 : occs (Act.ev (.onFailedDropped id2))
          [Act.ev (.onScheduled id d), Act.install id m.nextEid] = 0 := by
        simp [occs, List.filter]
      omega

/-- C5 witness: in the drop scenario state `Md5` (slot held by task 1's
body), the acquire attempt for entry 1 of "t2" is rejected with the
dropped-error event and the task never runs. -/
theorem C5_drop_admission_rejection_witness :
    acquireSlot Md5 "t2" 1 =
      (deleteIfCurrent (push Md5 (.ev (.onFailedDropped "t2"))) "t2" 1, .droppedNoSlot) ∧
    occs (.taskRun 1) (goBody Md5 "t2" 1 0).trace = occs (.taskRun 1) Md5.trace := by
  exact (C5_drop_admission_rejection.1 Md5 "t2" 1 1 (by decide) (by decide) (by decide))

/-- C6.  Block cancellation-while-waiting: with the Block strategy and no
free slot, an uncancelled token parks the firing thread; when the parked
thread is resumed after its token was cancelled, it removes the entry only
if still current, never runs the task, and emits no telemetry event of its
own.  In the cancel-while-waiting scenario, task 2 never runs, its entry is
gone, and only the canceller's single `OnCancelled("b")` event exists. -/
theorem C6_block_cancel_while_waiting :
    (∀ (m : Manager) (id : String) (eid : Nat) (cap : Nat),
        m.semCap = some cap → m.strategy = .block → ¬ m.semUsed < cap →
        ((alookup eid m.entries).map EntryState.tokenCancelled).getD false = false →
        acquireSlot m id eid = (m, .wouldBlock)) ∧
    (∀ (m : Manager) (id : String) (eid : Nat),
        evs (waiterCancelled m id eid) = evs m ∧
        occs (.taskRun eid) (waiterCancelled m id eid).trace =
          occs (.taskRun eid) m.trace ∧
        (∀ e2, alookup id m.pending = some e2 → e2 ≠ eid →
          alookup id (waiterCancelled m id eid).pending = some e2) ∧
        (alookup id m.pending = some eid →
          alookup id (waiterCancelled m id eid).pending = none)) ∧
    (acquireSlot Mb5 "b" 1 = (Mb5, .wouldBlock) ∧
     occs (.taskRun 1) Mb8.trace = 0 ∧
     alookup "b" Mb8.pending = none ∧
     occs (.ev (.onCancelled "b")) Mb8.trace = 1 ∧
     evs Mb7 = evs Mb6) := by
  refine ⟨?_, ?_, by decide⟩
  · intro m id eid cap h1 h2 h3 h4
    unfold acquireSlot
    rw [h1]
    have h5 : ¬ m.strategy = Strategy.drop := by rw [h2]; intro h6; cases h6
    simp [h5, h3, h4]
  · intro m id eid
    refine ⟨evs_waiterCancelled m id eid, ?_, ?_, ?_⟩
    · rw [waiterCancelled_trace, occs_append,
          occs_deleteIfCurrent_of_ne _ _ _ _ (by intro id2 e2; simp)]
      have h4 : occs (Act.taskRun eid) [Act.tokenCancel eid, Act.wgDec] = 0 := by
        simp [occs, List.filter]
      omega
    · intro e2 h1 h2
      rw [waiterCancelled_pending, deleteIfCurrent_stale m id eid e2 h1 h2]
      exact h1
    · intro h1
      rw [waiterCancelled_pending]
      exact deleteIfCurrent_current m id eid h1

/-- C6 witness: in the cancel-while-waiting state `Mb6` (token of parked
entry 1 cancelled by `Cancel("b")`), the resumed waiter emits no event and
leaves "b" unmapped. -/
theorem C6_block_cancel_while_waiting_witness :
    evs (waiterCancelled Mb6 "b" 1) = evs Mb6 ∧
    acquireSlot Mb5 "b" 1 = (Mb5, .wouldBlock) := by
  refine ⟨(C6_block_cancel_while_waiting.2.1 Mb6 "b" 1).1, ?_⟩
  exact C6_block_cancel_while_waiting.1 Mb5 "b" 1 1 (by decide) (by decide)
    (by decide) (by decide)

/-- C1.  Debounce-by-ID: scheduling `id` on an open manager that already
holds entry `e1` for `id` stops `e1`'s timer and cancels its token before
installing the fresh entry, appends exactly one `OnRescheduled(id)` event
(and no `OnScheduled`), maps `id` to the fresh entry, and leaves `e1`
unable to fire.  In the debounce scenario (two schedules of "x" before the
first timer fires, then the second timer fires and runs), f1 never runs, f2
runs exactly once, and exactly one rescheduled event exists. -/
theorem C1_debounce_by_id :
    (∀ (m : Manager) (id : String) (d : Int) (e1 : Nat) (es : EntryState),
        m.isClosed = false →
        alookup id m.pending = some e1 →
        alookup e1 m.entries = some es →
        e1 ≠ m.nextEid →
        alookup id (Schedule m id d).pending = some m.nextEid ∧
        alookup e1 (Schedule m id d).entries = some ⟨true, true, es.fired⟩ ∧
        (Schedule m id d).trace =
          m.trace ++ [.timerStop e1, .tokenCancel e1, .ev (.onRescheduled id),
                      .install id m.nextEid] ∧
        canFire (Schedule m id d) e1 = false) ∧
    (occs (.taskRun 0) Mx4.trace = 0 ∧
     occs (.taskRun 1) Mx4.trace = 1 ∧
     occs (.ev (.onRescheduled "x")) Mx4.trace = 1 ∧
     occs (.ev (.onScheduled "x" 10)) Mx4.trace = 1 ∧
     canFire Mx4 0 = false ∧ canFire Mx4 1 = false) := by
  refine ⟨?_, by decide⟩
  intro m id d e1 es h1 h2 h3 h4
  have hcl : ¬ m.isClosed = true := by rw [h1]; exact Bool.false_ne_true
  have hent : alookup e1 (Schedule m id d).entries = some ⟨true, true, es.fired⟩ := by
    unfold Schedule
    rw [if_neg hcl, h2]
    simp only [push_entries, push_nextEid, cancelToken_nextEid, stopTimer_nextEid]
    rw [alookup_aset_ne _ _ _ _ h4]
    unfold cancelToken stopTimer
    simp only [push_entries, alookup_setEntry_self, h3, Option.map_some]
    rfl
  refine ⟨?_, hent, ?_, ?_⟩
  · unfold Schedule
    rw [if_neg hcl, h2]
    simp only [push_nextEid, cancelToken_nextEid, stopTimer_nextEid]
    rw [alookup_aset_self]
  · unfold Schedule
    rw [if_neg hcl, h2]
    simp only [push_trace, push_nextEid, cancelToken_trace, stopTimer_trace,
      cancelToken_nextEid, stopTimer_nextEid, List.append_assoc, List.cons_append,
      List.nil_append]
  · unfold canFire
    rw [hent]
    rfl

/-- C1 witness: the second `Schedule("x", 10)` on `Mx1` (entry 0 pending)
replaces entry 0 with entry 1, records the replace sequence in the trace,
and leaves entry 0 unable to fire. -/
theorem C1_debounce_by_id_witness :
    alookup "x" Mx2.pending = some 1 ∧
    alookup 0 Mx2.entries = some ⟨true, true, false⟩ ∧
    Mx2.trace = Mx1.trace ++ [.timerStop 0, .tokenCancel 0, .ev (.onRescheduled "x"),
                              .install "x" 1] ∧
    canFire Mx2 0 = false := by
  exact C1_debounce_by_id.1 Mx1 "x" 10 0 ⟨false, false, false⟩
    (by decide) (by decide) (by decide) (by decide)

/-- Trace of the admitted-path exit sequence: registry removal, then the
executed event, then the deferred slot release, then the deferred token
cancellation, then the counter decrement. -/
theorem finishAdmitted_trace (m : Manager) (id : String) (eid : Nat) (el : Int) (cap : Nat)
    (h1 : m.semCap = some cap) (h3 : alookup id m.pending = some eid) :
    (finishAdmitted m id eid el).trace =
      m.trace ++ [.entryDeleted id eid, .ev (.onExecuted id el), .slotReleased,
                  .tokenCancel eid, .wgDec] := by
  unfold finishAdmitted
  have hd : deleteIfCurrent m id eid =
      push { m with pending := aerase id m.pending } (.entryDeleted id eid) := by
    unfold deleteIfCurrent; rw [h3]; simp
  have hrel : ∀ x : Manager, x.semCap = some cap →
      (releaseSlot x).trace = x.trace ++ [.slotReleased] := by
    intro x hx; unfold releaseSlot; rw [hx]; rfl
  rw [wgDone_trace, cancelToken_trace, hrel _ (by simp [hd, h1]), hd]
  simp

/-- C9 (amended).  Post-admission execution order as the code performs it:
for a fired task granted a slot (limit configured, slot free, entry still
current), the recorded trace is — slot acquisition, start-time recording,
task-body invocation, registry removal, `OnExecuted` with the elapsed
duration, and only then the deferred slot release, token cancellation and
counter decrement.  (The spec instead places the slot release before the
registry removal and the event; the counterexample refutes that order.) -/
theorem C9_post_admission_order :
    ∀ (m : Manager) (id : String) (eid : Nat) (el : Int) (cap : Nat),
      m.semCap = some cap → m.semUsed < cap → alookup id m.pending = some eid →
      (goBody m id eid el).trace =
        m.trace ++ [.slotAcquired, .recordStart, .taskRun eid,
                    .entryDeleted id eid, .ev (.onExecuted id el),
                    .slotReleased, .tokenCancel eid, .wgDec] := by
  intro m id eid el cap h1 h2 h3
  have hacq : acquireSlot m id eid =
      (push { m with semUsed := m.semUsed + 1 } .slotAcquired, .acquired) := by
    unfold acquireSlot
    rw [h1]
    by_cases h4 : m.strategy = .drop <;> simp [h4, h2]
  have hgo : goBody m id eid el =
      finishAdmitted (startAdmitted (push { m with semUsed := m.semUsed + 1 }
        .slotAcquired) eid) id eid el := by
    unfold goBody
    rw [hacq]
  rw [hgo, finishAdmitted_trace _ _ _ _ cap (by simp [startAdmitted, h1])
        (by simp [startAdmitted, h3])]
  simp [startAdmitted]

/-- C9 counterexample: on the concrete admitted run `Mo3` both a slot
release and the registry removal occur, but the release does not precede
the removal, contrary to the order the spec states. -/
theorem C9_post_admission_order_counterexample :
    Act.slotReleased ∈ Mo3.trace ∧ Act.entryDeleted "a" 0 ∈ Mo3.trace ∧
    releasedBeforeDeleted "a" 0 Mo3.trace = false := by decide

/-- C9 witness: the concrete admitted run on `Mb2` produces exactly the
amended order. -/
theorem C9_post_admission_order_witness :
    (goBody Mb2 "a" 0 7).trace =
      Mb2.trace ++ [.slotAcquired, .recordStart, .taskRun 0, .entryDeleted "a" 0,
                    .ev (.onExecuted "a" 7), .slotReleased, .tokenCancel 0, .wgDec] := by
  exact C9_post_admission_order Mb2 "a" 0 7 1 (by decide) (by decide) (by decide)

/-- C4 (amended).  Shutdown outcome protocol: every call leaves the
once-guard consumed; only the first call performs the closing transition
(a second call is the identity); the transition sets the closed flag,
empties the registry, and for every previously registered entry stops its
timer, cancels its token and emits `OnCancelled`; a call whose deadline is
ready while the drain is incomplete returns the deadline error (the drain
state is untouched — `shutdownResult` reads it only); a call whose deadline
is not ready returns success once drained; the done signal arrives exactly
when the counter is zero after the transition, and is never cleared again.
(The spec's further sentence that once drained every call returns success
fails for a caller whose deadline is also already ready: Go's select then
chooses between the two ready cases, and may return the deadline error —
see the counterexample.) -/
theorem C4_shutdown_outcome_protocol :
    (∀ m : Manager, (shutdownTransition m).shutdownStarted = true) ∧
    (∀ m : Manager, m.shutdownStarted = true → shutdownTransition m = m) ∧
    (∀ m : Manager, m.shutdownStarted = false →
        (shutdownTransition m).isClosed = true ∧
        (shutdownTransition m).pending = [] ∧
        (∀ p ∈ m.pending, Act.ev (.onCancelled p.1) ∈ (shutdownTransition m).trace) ∧
        (∀ p ∈ m.pending, present m p.2 → flagged (shutdownTransition m) p.2)) ∧
    (∀ (m : Manager) (pick : Bool), m.shutdownDone = false →
        shutdownResult m true pick = some .deadlineExceeded) ∧
    (∀ (m : Manager) (pick : Bool), m.shutdownDone = true →
        shutdownResult m false pick = none) ∧
    (∀ m : Manager, m.shutdownStarted = true → m.wg = 0 →
        (drainComplete m).shutdownDone = true) ∧
    (∀ m : Manager, m.shutdownDone = true →
        (shutdownTransition m).shutdownDone = true ∧
        (drainComplete m).shutdownDone = true) := by
  refine ⟨?_, ?_, ?_, ?_, ?_, ?_, ?_⟩
  · intro m
    unfold shutdownTransition
    by_cases h : m.shutdownStarted = true
    · rw [if_pos h]; exact h
    · rw [if_neg h]
      rw [shutdownStarted_foldl_cancelOne]
  · intro m h
    unfold shutdownTransition
    rw [if_pos h]
  · intro m h
    unfold shutdownTransition
    rw [if_neg (by rw [h]; exact Bool.false_ne_true)]
    refine ⟨?_, ?_, ?_, ?_⟩
    · rw [isClosed_foldl_cancelOne]
    · rw [foldl_cancelOne_pending]
      exact foldl_aerase_nil _ _ (fun q hq => List.mem_map_of_mem Prod.fst hq)
    · intro p hp
      exact cancelled_event_foldl_of_mem _ _ p hp
    · intro p hp hpres
      exact flagged_foldl_of_mem _ _ p hp hpres
  · intro m pick h
    unfold shutdownResult
    rw [h]
    simp
  · intro m pick h
    unfold shutdownResult
    rw [h]
    simp
  · intro m h1 h2
    unfold drainComplete
    simp [h1, h2]
  · intro m h
    constructor
    · unfold shutdownTransition
      by_cases h2 : m.shutdownStarted = true
      · rw [if_pos h2]; exact h
      · rw [if_neg h2, shutdownDone_foldl_cancelOne]; exact h
    · unfold drainComplete
      by_cases h2 : (m.shutdownStarted && m.wg == 0) = true <;> simp [h2, h]

/-- C4 counterexample: on the drained manager `Msd` a `Shutdown` call whose
deadline is also already ready may return the deadline error, contradicting
the claim that once drained every past and future call returns success. -/
theorem C4_shutdown_outcome_protocol_counterexample :
    Msd.shutdownDone = true ∧ shutdownResult Msd true true = some .deadlineExceeded := by
  decide

/-- C4 witness: a second transition on the already-closed `Mc` is the
identity; an undrained deadline-ready call errors; a drained call with time
left succeeds; the drain signal fires at counter zero. -/
theorem C4_shutdown_outcome_protocol_witness :
    shutdownTransition Mc = Mc ∧
    shutdownResult Mc true false = some .deadlineExceeded ∧
    shutdownResult Msd false true = none ∧
    (drainComplete Mc).shutdownDone = true := by
  refine ⟨?_, ?_, ?_, ?_⟩
  · exact C4_shutdown_outcome_protocol.2.1 Mc (by decide)
  · exact C4_shutdown_outcome_protocol.2.2.2.1 Mc false (by decide)
  · exact C4_shutdown_outcome_protocol.2.2.2.2.1 Msd true (by decide)
  · exact C4_shutdown_outcome_protocol.2.2.2.2.2.1 Mc (by decide) (by decide)

/-- C8 (amended).  Shutdown error condition: a deadline whose context is
not ready yields success in every state, and any non-nil return is the
deadline-exceeded error and occurs only when the deadline is ready.  (The
spec's stronger claim — error only when the deadline is exceeded before the
drain completes — fails: with both the done signal and the deadline ready,
the select may pick the deadline case; see the counterexample.)  `Schedule`
and `Cancel` return no error by type. -/
theorem C8_shutdown_error_condition :
    (∀ (m : Manager) (pick : Bool), shutdownResult m false pick = none) ∧
    (∀ (m : Manager) (dl pick : Bool) (e : ShutdownErr),
        shutdownResult m dl pick = some e → dl = true ∧ e = .deadlineExceeded) := by
  constructor
  · intro m pick
    unfold shutdownResult
    by_cases h : m.shutdownDone = true <;> simp [h]
  · intro m dl pick e h
    unfold shutdownResult at h
    by_cases h1 : m.shutdownDone = true <;> by_cases h2 : dl = true <;>
      by_cases h3 : pick = true <;> simp [h1, h2, h3] at h <;> simp_all

/-- C8 counterexample: on the drained manager `Msd2` a ready deadline may
still produce the deadline error, though the drain had already completed —
refuting "error only when the deadline is exceeded before the drain
completes". -/
theorem C8_shutdown_error_condition_counterexample :
    Msd2.shutdownDone = true ∧ shutdownResult Msd2 true true = some .deadlineExceeded := by
  decide

/-- C8 witness: a not-yet-ready deadline returns success on the fresh
manager, and the error produced by an undrained ready deadline is exactly
the deadline error. -/
theorem C8_shutdown_error_condition_witness :
    shutdownResult M0 false true = none ∧
    (true = true ∧ ShutdownErr.deadlineExceeded = .deadlineExceeded) := by
  refine ⟨C8_shutdown_error_condition.1 M0 true, ?_⟩
  exact C8_shutdown_error_condition.2 M0 true false .deadlineExceeded (by decide)

/-- C7.  Fire/shutdown race exclusion: in every reachable interleaving of a
timer fire with a shutdown, the handler's read-locked section excludes the
closing transition's write-locked section; and whenever the shutdown thread
has observed drain-complete, the fire thread is neither counted-but-pending
nor running, and any closed-check it has performed saw the closed flag —
the fired task is either fully excluded or was counted and waited for,
never silently lost. -/
theorem C7_fire_shutdown_race_exclusion :
    ∀ s : RaceSys, RReach s →
      (fHoldsR s.fpc = true → sHoldsW s.spc = false) ∧
      (s.spc = .sDone →
        s.fpc ≠ .fCounted ∧ s.fpc ≠ .fRun ∧ (s.fpc = .fRead → s.obs = true)) := by
  intro s h
  obtain ⟨h1, h2, h3, h4, h5, h6⟩ := rinv_reach s h
  refine ⟨h3, ?_⟩
  intro hd
  refine ⟨(h6 hd).1, (h6 hd).2, ?_⟩
  intro hr
  rw [h4 hr, h2, hd]
  rfl

/-- C7 witness: the state with the shutdown thread finished and the fire
thread not yet started is reachable, and there the guarantees hold. -/
theorem C7_fire_shutdown_race_exclusion_witness :
    (fHoldsR (RaceSys.mk .f0 .sDone false true 0).fpc = true →
      sHoldsW (RaceSys.mk .f0 .sDone false true 0).spc = false) ∧
    ((RaceSys.mk .f0 .sDone false true 0).spc = .sDone →
      (RaceSys.mk .f0 .sDone false true 0).fpc ≠ .fCounted ∧
      (RaceSys.mk .f0 .sDone false true 0).fpc ≠ .fRun ∧
      ((RaceSys.mk .f0 .sDone false true 0).fpc = .fRead →
        (RaceSys.mk .f0 .sDone false true 0).obs = true)) := by
  apply C7_fire_shutdown_race_exclusion
  have s1 : RStep rinit ⟨.f0, .sW, false, false, 0⟩ := RStep.sAcqW rinit rfl rfl
  have s2 : RStep (⟨.f0, .sW, false, false, 0⟩ : RaceSys) ⟨.f0, .sClosed, false, true, 0⟩ :=
    RStep.sClose _ rfl
  have s3 : RStep (⟨.f0, .sClosed, false, true, 0⟩ : RaceSys) ⟨.f0, .s3, false, true, 0⟩ :=
    RStep.sRelW _ rfl
  have s4 : RStep (⟨.f0, .s3, false, true, 0⟩ : RaceSys) ⟨.f0, .sDone, false, true, 0⟩ :=
    RStep.sWaitDone _ rfl rfl
  exact Relation.ReflTransGen.tail (Relation.ReflTransGen.tail
    (Relation.ReflTransGen.tail (Relation.ReflTransGen.single s1) s2) s3) s4

end Pending
